import Mathlib

/-!
# Verification of the openGala client against its specification

Shallow embedding of the openGala command-line client (Rust sources:
`src/main.rs`, `src/config.rs`, `src/api/auth.rs`, `src/shared/errors.rs`).

Paths are modelled as `String`, machine integers as `Nat`, and fallible
operations as `Except`.  External collaborators (the HTTP transport, the
serde JSON parser, the `confy` on-disk store, and the process spawner)
are modelled at their boundary as explicit inputs.  Components of the
repository that are declared/called from `main.rs` but whose source file
is not part of the snapshot (`utils.rs`, `constants.rs`, `shared/models`)
are modelled from the specification; each such definition carries a doc
comment starting with `Modelled from the spec:`.
-/

namespace OpenGala

/-- The version label of a product build together with its target
platform.  Mirrors the fields of `ProductVersion` used by `main.rs`
(`v.version`, `v.os`); the struct itself lives in the missing
`shared/models` module, its fields are evidenced by use in `main.rs`
and by §3 of the spec ("version label, target platform"). -/
structure ProductVersion where
  version : String
  os : String
deriving DecidableEq, Repr

/-- A purchased catalog entry.  `slugged_name` and the `version` list are
the fields `main.rs` reads (`p.slugged_name`, `p.version`); `nspace`,
`id`, `name`, `id_key_name` mirror the remaining fields of
`api/auth.rs`'s `Product` (the Rust field `namespace` is a Lean keyword,
hence `nspace`). -/
structure Product where
  nspace : String
  slugged_name : String
  id : Nat
  name : String
  id_key_name : String
  version : List ProductVersion
deriving DecidableEq, Repr

/-- Structure `LibraryConfig` from `config.rs`: the synced product collection. -/
structure LibraryConfig where
  collection : List Product
deriving DecidableEq, Repr

/-- Record `InstallInfo` from the (missing) `shared/models`; fields per §3 of
the spec and the uses in `main.rs`: installed version, target platform,
absolute install path, optional executable path. -/
structure InstallInfo where
  version : String
  os : String
  install_path : String
  exe_path : Option String
deriving DecidableEq, Repr

/-- Type `InstalledConfig = HashMap<String, InstallInfo>` from `config.rs`,
modelled as an association list keyed by slug. -/
abbrev InstalledConfig := List (String × InstallInfo)

/-- Operation `HashMap::contains_key` on the association-list model. -/
def containsKey (m : InstalledConfig) (k : String) : Bool :=
  m.any (fun e => e.1 == k)

/-- Lookup of the record stored for a slug (`HashMap::get`). -/
def lookupKey (m : InstalledConfig) (k : String) : Option InstallInfo :=
  (m.find? (fun e => e.1 == k)).map (fun e => e.2)

/-- Operation `HashMap::remove`, by its effect on the mapping: drop every binding of the
key. -/
def eraseKey (m : InstalledConfig) (k : String) : InstalledConfig :=
  m.filter (fun e => !(e.1 == k))

/-- Operation `HashMap::insert`, by its effect on the mapping: bind the key to the value,
replacing any previous binding. -/
def insertKey (m : InstalledConfig) (k : String) (v : InstallInfo) : InstalledConfig :=
  (k, v) :: eraseKey m k

/-- Command attempted by the launch orchestrator: program plus argument
vector (the payload of `FreeCarnivalError::Command`). -/
structure LaunchCommand where
  program : String
  args : List String
deriving DecidableEq, Repr

/-- Error type `FreeCarnivalError` from `src/shared/errors.rs`, restricted to the
variants the verified commands can produce.  Foreign payloads
(`std::io::Error`, `ConfyError`) are modelled as `String`. -/
inductive FreeCarnivalError where
  | GameNotFound
  | Auth
  | AlreadyInstalled (slug : String)
  | NotInstalled (slug : String)
  | InstallBuild (version : String) (slug : String)
  | LoadConfig (name : String) (err : String)
  | SaveConfig (name : String) (err : String)
  | ClearConfig (name : String) (err : String)
  | CreateDir (err : String)
  | RemoveDir (err : String)
  | Command (cmd : LaunchCommand) (err : String)
deriving DecidableEq, Repr

/-- Observable side effects of one CLI command, in order of occurrence.
`callInstall` covers everything `utils::install` does on disk and on the
network (directory creation, fetching); `storeInstalled` is the
persistence of the installed-state mapping; `removeDir` is the recursive
removal of an install directory by `utils::uninstall`. -/
inductive Effect where
  | resolveVersion
  | callInstall
  | storeInstalled
  | removeDir (path : String)
deriving DecidableEq, Repr

/-- Result of one CLI command: the effects it performed, the
installed-state mapping as persisted on disk afterwards, and the
command's own outcome. -/
structure CmdOutcome where
  effects : List Effect
  persisted : InstalledConfig
  result : Except FreeCarnivalError Unit
deriving Repr

/-- Install options; `main.rs` reads `install_opts.info` (info-only
mode). -/
structure InstallOpts where
  info : Bool
deriving DecidableEq, Repr

/-- Destination-path resolution from `main.rs` lines 87–91:
explicit `path` wins, otherwise `base_path.join(slug)`, otherwise
`DEFAULT_BASE_INSTALL_PATH.join(slug)`.  The default base path is a
constant of the missing `constants.rs`, so it is a parameter here. -/
def resolve_install_path (defaultBase : String) (path : Option String)
    (base_path : Option String) (slug : String) : String :=
  match path, base_path with
  | some p, _ => p
  | none, some b => b ++ "/" ++ slug
  | none, none => defaultBase ++ "/" ++ slug

/-- Version resolution of the `Install` branch (`main.rs` lines 96–121):
find the product by slug, then find a version entry whose label equals
the requested one and whose platform equals the requested `os` when one
is given (any platform matches when `os` is `None`). -/
def resolveVersionInstall (library : LibraryConfig) (slug : String)
    (version : String) (os : Option String) : Except FreeCarnivalError ProductVersion :=
  match library.collection.find? (fun p => p.slugged_name == slug) with
  | none => .error .GameNotFound
  | some product =>
    match product.version.find? (fun v =>
        v.version == version &&
          match os with
          | some target => v.os == target
          | none => true) with
    | none => .error (.InstallBuild version slug)
    | some v => .ok v

/-- Version resolution of the `Update` branch (`main.rs` lines 186–205):
find the product by slug, then find a version entry by label alone —
no platform condition appears in the `find` closure. -/
def resolveVersionUpdate (library : LibraryConfig) (slug : String)
    (version : String) : Except FreeCarnivalError ProductVersion :=
  match library.collection.find? (fun p => p.slugged_name == slug) with
  | none => .error .GameNotFound
  | some product =>
    match product.version.find? (fun v => v.version == version) with
    | none => .error (.InstallBuild version slug)
    | some v => .ok v

/-- The `Commands::Install` branch of `main.rs` (lines 74–143).
`persisted` is the installed-state mapping as loaded from disk;
`installResult` is the outcome of the call to `utils::install`
(whose source is not in the snapshot: per §4.4/§9 of the spec the
engine only returns an info string and an optional `InstallInfo`,
and never receives the installed-state mapping).  The branch:
rejects an already-installed slug unless info-only mode is set,
resolves the destination path, resolves the version when one is given,
calls the engine, and inserts + stores the mapping exactly when the
engine returns `Some(install_info)`. -/
def installCmd (persisted : InstalledConfig) (library : LibraryConfig)
    (slug : String) (version : Option String) (path : Option String)
    (base_path : Option String) (os : Option String) (opts : InstallOpts)
    (defaultBase : String)
    (installResult : Except FreeCarnivalError (String × Option InstallInfo)) :
    CmdOutcome :=
  if containsKey persisted slug && !opts.info then
    ⟨[], persisted, .error (.AlreadyInstalled slug)⟩
  else
    let _install_path := resolve_install_path defaultBase path base_path slug
    let resolved : Except FreeCarnivalError (Option ProductVersion) :=
      match version with
      | some v =>
        match resolveVersionInstall library slug v os with
        | .error e => .error e
        | .ok pv => .ok (some pv)
      | none => .ok none
    let resolveEffects : List Effect :=
      match version with
      | some _ => [.resolveVersion]
      | none => []
    match resolved with
    | .error e => ⟨resolveEffects, persisted, .error e⟩
    | .ok _selected =>
      match installResult with
      | .error e => ⟨resolveEffects ++ [.callInstall], persisted, .error e⟩
      | .ok (_info, some install_info) =>
        ⟨resolveEffects ++ [.callInstall, .storeInstalled],
          insertKey persisted slug install_info, .ok ()⟩
      | .ok (_info, none) =>
        ⟨resolveEffects ++ [.callInstall], persisted, .ok ()⟩

/-- The `Commands::Uninstall` branch of `main.rs` (lines 144–159).
`removeResult` is the outcome of `utils::uninstall(install_path)`
(source not in the snapshot; per §4.4 it recursively removes the
install directory, failing with a directory-remove error).  The branch
removes the slug's record from the in-memory mapping, attempts directory
removal only when `keep` is unset (propagating its error before any
store), and persists the shrunken mapping afterwards. -/
def uninstallCmd (persisted : InstalledConfig) (slug : String) (keep : Bool)
    (removeResult : Except FreeCarnivalError Unit) : CmdOutcome :=
  match lookupKey persisted slug with
  | none => ⟨[], persisted, .error (.NotInstalled slug)⟩
  | some install_info =>
    if keep then
      ⟨[.storeInstalled], eraseKey persisted slug, .ok ()⟩
    else
      match removeResult with
      | .error e => ⟨[.removeDir install_info.install_path], persisted, .error e⟩
      | .ok () =>
        ⟨[.removeDir install_info.install_path, .storeInstalled],
          eraseKey persisted slug, .ok ()⟩

/-- The strict total (lexicographic) order on version labels, via the
label's character list (§4.5: version labels are opaque comparable
labels, compared lexicographically). -/
def labelLt (a b : String) : Prop := a.data < b.data

/-- The reflexive closure of `labelLt`. -/
def labelLe (a b : String) : Prop := a.data ≤ b.data

instance (a b : String) : Decidable (labelLt a b) :=
  inferInstanceAs (Decidable (a.data < b.data))

instance (a b : String) : Decidable (labelLe a b) :=
  inferInstanceAs (Decidable (a.data ≤ b.data))

/-- The greatest element of a list of version labels under the total
(lexicographic) order on labels, `none` for the empty list. -/
def maxLabel : List String → Option String
  | [] => none
  | v :: rest =>
    match maxLabel rest with
    | none => some v
    | some m => some (if labelLt v m then m else v)

/-- The catalog versions for `info.os` that are strictly newer than the
installed `info.version`, for the product `p`. -/
def newerVersions (p : Product) (info : InstallInfo) : List String :=
  ((p.version.filter (fun v => v.os == info.os)).map
    (fun v => v.version)).filter (fun w => decide (labelLt info.version w))

/-- Modelled from the spec: `utils::check_updates` is declared and called
from `main.rs` (`Commands::ListUpdates`) but `utils.rs` is not in the
snapshot.  Per §4.5: for each installed slug present in the catalog,
compare the installed version against every catalog version on the
installed platform under the total ordering on version labels, and
return only the slugs for which a strictly newer version exists, mapped
to the maximal such version; installed slugs absent from the catalog are
silently skipped. -/
def check_updates (library : LibraryConfig) (installed : InstalledConfig) :
    List (String × String) :=
  installed.filterMap (fun e =>
    match library.collection.find? (fun p => p.slugged_name == e.1) with
    | none => none
    | some p =>
      match maxLabel (newerVersions p e.2) with
      | none => none
      | some latest => some (e.1, latest))

/-- Exit status of a spawned child process. -/
structure ExitStatus where
  code : Option Int
deriving DecidableEq, Repr

/-- Outcome of the process-spawn boundary: either the child was spawned
and waited for, yielding its exit status, or spawning failed with an OS
error. -/
abbrev SpawnOutcome := Except String ExitStatus

/-- Modelled from the spec: the launch orchestrator `utils::launch` is
called from `main.rs` (`Commands::Launch`) but `utils.rs` is not in the
snapshot.  Per §4.6, the orchestrator spawns the resolved command, waits
for process exit and returns the exit status; a spawn failure fails with
a launch error (`FreeCarnivalError::Command`) carrying the attempted
command for diagnostics. -/
def launch (cmd : LaunchCommand) (spawn : SpawnOutcome) :
    Except FreeCarnivalError ExitStatus :=
  match spawn with
  | .error e => .error (.Command cmd e)
  | .ok status => .ok status

/-! ## The config store (`src/config.rs`)

`confy`'s on-disk store is an external collaborator; it is modelled as a
map from file path to the stored document.  Serialisation is modelled by
the sum `ConfigValue` of the four document shapes, so that each concrete
config type has an injective `serialize` with a partial inverse. -/

/-- Record `UserInfo` from `src/api/auth.rs`: the parsed user-info response. -/
structure UserInfo where
  status : String
  user_found : String
  email : Option String
  username : Option String
  user_id : Option Nat
deriving DecidableEq, Repr

/-- A document stored in a config file: one shape per concrete config
type of `config.rs` (`UserConfig`, `LibraryConfig`, `InstalledConfig`,
`CookieConfig`). -/
inductive ConfigValue where
  | user (u : Option UserInfo)
  | library (collection : List Product)
  | installed (m : InstalledConfig)
  | cookies (raw : List String)
deriving DecidableEq, Repr

/-- The on-disk store: file path to stored document (`none` = no file). -/
def ConfigFS : Type := String → Option ConfigValue

/-- The `GalaConfig` trait of `config.rs` for one concrete record type:
its config name, its `Default::default()` value, and its serde
round-trip (`deserialize (serialize a) = some a` holds for every
concrete impl because each writes and reads its own document shape). -/
structure GalaConfig (α : Type) where
  config_name : String
  defaultVal : α
  serialize : α → ConfigValue
  deserialize : ConfigValue → Option α
  roundtrip : ∀ a, deserialize (serialize a) = some a

/-- Method `GalaConfig::get_config_path` (`config.rs` lines 39–50): the
config file `<name>.yml` under the configuration directory (the
directory itself comes from `CONFIG_PATH` or from `confy`; it is a
parameter here). -/
def get_config_path (dir : String) (name : String) : String :=
  dir ++ "/" ++ name ++ ".yml"

/-- Method `GalaConfig::store` (`config.rs` lines 27–30): write the serialised
value to the type's config path (`confy::store_path`). -/
def storeFS {α : Type} (C : GalaConfig α) (v : α) (dir : String)
    (fs : ConfigFS) : ConfigFS :=
  fun p => if p = get_config_path dir C.config_name then some (C.serialize v) else fs p

/-- Method `GalaConfig::clear` (`config.rs` lines 32–35): write the serialised
`Self::default()` to the type's config path (`confy::store_path`). -/
def clearFS {α : Type} (C : GalaConfig α) (dir : String)
    (fs : ConfigFS) : ConfigFS :=
  fun p => if p = get_config_path dir C.config_name then some (C.serialize C.defaultVal) else fs p

/-- Method `GalaConfig::load` (`config.rs` lines 22–25): read the type's config
path; `confy::load_path` yields `Default::default()` when the file does
not exist, the deserialised value when it parses, and an error
otherwise. -/
def loadFS {α : Type} (C : GalaConfig α) (dir : String) (fs : ConfigFS) :
    Except FreeCarnivalError α :=
  match fs (get_config_path dir C.config_name) with
  | none => .ok C.defaultVal
  | some doc =>
    match C.deserialize doc with
    | some v => .ok v
    | none => .error (.LoadConfig C.config_name "parse")

/-- The `UserConfig` impl of `GalaConfig` (`config.rs` lines 53–62):
config name "user", default `None`. -/
def UserConfigImpl : GalaConfig (Option UserInfo) where
  config_name := "user"
  defaultVal := none
  serialize := fun u => .user u
  deserialize := fun doc =>
    match doc with
    | .user u => some u
    | _ => none
  roundtrip := fun _ => rfl

/-- The `LibraryConfig` impl of `GalaConfig` (`config.rs` lines 73–82):
config name "library", default empty collection. -/
def LibraryConfigImpl : GalaConfig (List Product) where
  config_name := "library"
  defaultVal := []
  serialize := fun c => .library c
  deserialize := fun doc =>
    match doc with
    | .library c => some c
    | _ => none
  roundtrip := fun _ => rfl

/-- The `InstalledConfig` impl of `GalaConfig` (`config.rs` lines
84–90): config name "installed", default empty mapping. -/
def InstalledConfigImpl : GalaConfig InstalledConfig where
  config_name := "installed"
  defaultVal := []
  serialize := fun m => .installed m
  deserialize := fun doc =>
    match doc with
    | .installed m => some m
    | _ => none
  roundtrip := fun _ => rfl

/-- The `CookieConfig` impl of `GalaConfig` (`config.rs` lines 64–71):
config name "cookies", default empty cookie list. -/
def CookieConfigImpl : GalaConfig (List String) where
  config_name := "cookies"
  defaultVal := []
  serialize := fun cs => .cookies cs
  deserialize := fun doc =>
    match doc with
    | .cookies cs => some cs
    | _ => none
  roundtrip := fun _ => rfl

/-! ## `api::auth::sync` (`src/api/auth.rs` lines 77–119)

The HTTP transport and the serde JSON parser are external collaborators,
modelled at their boundary: a transport failure is the `Except.error`
case of the input, and a successful response is modelled by its
observable parse outcomes on the one response body (the outcome of
`serde_json::from_str::<UserInfo>` and of
`serde_json::from_str::<UserInfoShowcaseContent>`), plus the raw
cookies taken from the response headers. -/

/-- Record `Content` from `api/auth.rs`: the user's product collection. -/
structure Content where
  user_collection : List Product
deriving DecidableEq, Repr

/-- Record `ShowcaseContent` from `api/auth.rs`. -/
structure ShowcaseContent where
  content : Content
deriving DecidableEq, Repr

/-- Record `UserInfoShowcaseContent` from `api/auth.rs`: the optional showcase
section of the user-info response. -/
structure UserInfoShowcaseContent where
  showcase_content : Option ShowcaseContent
deriving DecidableEq, Repr

/-- A successfully transported user-info response, by its observable
parse outcomes: `parseUser` is the result of parsing the body as
`UserInfo` (`none` = serde error), `parseShowcase` the result of parsing
the same body as `UserInfoShowcaseContent` (`none` = serde error), and
`raw_cookies` the unexpired cookies of the response headers. -/
structure SyncResponse where
  raw_cookies : List String
  parseUser : Option UserInfo
  parseShowcase : Option UserInfoShowcaseContent
deriving DecidableEq, Repr

/-- Record `SyncResult` from `api/auth.rs`: the configs produced by a
successful sync. -/
structure SyncResult where
  user_config : Option UserInfo
  cookie_config : List String
  library_config : List Product
deriving DecidableEq, Repr

/-- Function `api::auth::sync` (`api/auth.rs` lines 77–119): propagate a
transport failure as `Err`; return `Ok None` when the body does not
parse as `UserInfo`, or `status` is not "success", or `user_found` is
not "true"; otherwise build a `SyncResult` whose collection is the
showcase content's collection, or empty when the showcase section is
absent or the showcase parse fails. -/
def sync (transport : Except String SyncResponse) :
    Except String (Option SyncResult) :=
  match transport with
  | .error e => .error e
  | .ok res =>
    match res.parseUser with
    | some user_info =>
      if user_info.status != "success" || user_info.user_found != "true" then
        .ok none
      else
        let user_collection :=
          match res.parseShowcase with
          | some parsed =>
            match parsed.showcase_content with
            | some showcase => showcase.content.user_collection
            | none => []
          | none => []
        .ok (some ⟨some user_info, res.raw_cookies, user_collection⟩)
    | none => .ok none

/-! ## Sample data used by witnesses and counterexamples -/

/-- A catalog version entry for platform "windows". -/
def winVersion : ProductVersion := ⟨"1.0", "windows"⟩

/-- A catalog product whose only version entry is the windows build. -/
def sampleProduct : Product := ⟨"ns", "game", 1, "Game", "key", [winVersion]⟩

/-- A library containing only `sampleProduct`. -/
def sampleLibrary : LibraryConfig := ⟨[sampleProduct]⟩

/-- An installed record for platform "linux". -/
def linuxInstall : InstallInfo := ⟨"0.9", "linux", "/opt/game", none⟩

/-! ## Claims -/

/-- C5: for every install invocation, the effective destination path is
resolved with the precedence: an explicit path argument is used as-is;
otherwise an explicit base path joined with the slug; otherwise the
default base install path joined with the slug (`main.rs` lines 87–91). -/
theorem install_path_precedence (defaultBase slug : String)
    (path base_path : Option String) :
    (∀ p, path = some p →
      resolve_install_path defaultBase path base_path slug = p) ∧
    (∀ b, path = none → base_path = some b →
      resolve_install_path defaultBase path base_path slug = b ++ "/" ++ slug) ∧
    (path = none → base_path = none →
      resolve_install_path defaultBase path base_path slug
        = defaultBase ++ "/" ++ slug) := by
  refine ⟨?_, ?_, ?_⟩
  · rintro p rfl
    rfl
  · rintro b rfl rfl
    rfl
  · rintro rfl rfl
    rfl

/-- Witness for C5 at a concrete input: an explicit path wins over an
explicit base path. -/
theorem install_path_precedence_witness :
    resolve_install_path "/games" (some "/opt/elsewhere") (some "/base") "game"
      = "/opt/elsewhere" :=
  (install_path_precedence "/games" "game" (some "/opt/elsewhere")
    (some "/base")).1 "/opt/elsewhere" rfl

/-- C2: for every install invocation where the installed-state mapping
already contains a record for the slug and info-only mode is not set,
the command fails with `AlreadyInstalled(slug)` with no version
resolution, no call into the install engine (which performs the
directory creation and fetch work), and with the persisted mapping
unchanged (`main.rs` lines 82–85). -/
theorem already_installed_preflight (persisted : InstalledConfig)
    (library : LibraryConfig) (slug : String) (version : Option String)
    (path base_path os : Option String) (opts : InstallOpts)
    (defaultBase : String)
    (installResult : Except FreeCarnivalError (String × Option InstallInfo))
    (hmem : containsKey persisted slug = true) (hinfo : opts.info = false) :
    installCmd persisted library slug version path base_path os opts
        defaultBase installResult
      = ⟨[], persisted, .error (.AlreadyInstalled slug)⟩ := by
  simp [installCmd, hmem, hinfo]

/-- Witness for C2: a concrete already-installed slug is rejected before
any work. -/
theorem already_installed_preflight_witness :
    installCmd [("game", linuxInstall)] sampleLibrary "game" none none none
        none ⟨false⟩ "/games" (.error .GameNotFound)
      = ⟨[], [("game", linuxInstall)], .error (.AlreadyInstalled "game")⟩ :=
  already_installed_preflight [("game", linuxInstall)] sampleLibrary "game"
    none none none none ⟨false⟩ "/games" (.error .GameNotFound) rfl rfl

/-- C1: for every install invocation, the install engine never receives
(and so never mutates) the installed-state mapping — `utils::install`
only returns data — and the CLI layer inserts an `InstallInfo` and
persists the mapping exactly when the engine returns
`Some(install_info)`; when the engine returns `None` or an error, the
persisted mapping is unchanged and no store is performed
(`main.rs` lines 123–142). -/
theorem engine_no_global_mutation (persisted : InstalledConfig)
    (library : LibraryConfig) (slug : String) (version : Option String)
    (path base_path os : Option String) (opts : InstallOpts)
    (defaultBase : String)
    (installResult : Except FreeCarnivalError (String × Option InstallInfo))
    (out : CmdOutcome)
    (hout : installCmd persisted library slug version path base_path os opts
        defaultBase installResult = out) :
    (∀ e, installResult = .error e →
      out.persisted = persisted ∧ Effect.storeInstalled ∉ out.effects) ∧
    (∀ info, installResult = .ok (info, none) →
      out.persisted = persisted ∧ Effect.storeInstalled ∉ out.effects) ∧
    (Effect.storeInstalled ∈ out.effects →
      ∃ info install_info, installResult = .ok (info, some install_info) ∧
        out.persisted = insertKey persisted slug install_info ∧
        out.result = .ok ()) ∧
    (Effect.storeInstalled ∉ out.effects → out.persisted = persisted) := by
  subst hout
  refine ⟨?_, ?_, ?_, ?_⟩
  · rintro e rfl
    simp only [installCmd]
    split
    · simp
    · cases version with
      | none => simp
      | some v =>
        cases hr : resolveVersionInstall library slug v os with
        | error e2 => simp [hr]
        | ok pv => simp [hr]
  · rintro info rfl
    simp only [installCmd]
    split
    · simp
    · cases version with
      | none => simp
      | some v =>
        cases hr : resolveVersionInstall library slug v os with
        | error e2 => simp [hr]
        | ok pv => simp [hr]
  · intro hstore
    by_cases hpre : (containsKey persisted slug && !opts.info) = true
    · simp only [installCmd, if_pos hpre] at hstore
      simp at hstore
    · simp only [installCmd, if_neg hpre] at hstore ⊢
      cases version with
      | none =>
        cases installResult with
        | error e => simp at hstore
        | ok r =>
          rcases r with ⟨info, ii⟩
          cases ii with
          | none => simp at hstore
          | some install_info =>
            exact ⟨info, install_info, rfl, by simp, by simp⟩
      | some v =>
        cases hr : resolveVersionInstall library slug v os with
        | error e2 => simp [hr] at hstore
        | ok pv =>
          simp only [hr] at hstore ⊢
          cases installResult with
          | error e => simp at hstore
          | ok r =>
            rcases r with ⟨info, ii⟩
            cases ii with
            | none => simp at hstore
            | some install_info =>
              exact ⟨info, install_info, rfl, by simp, by simp⟩
  · intro hnostore
    by_cases hpre : (containsKey persisted slug && !opts.info) = true
    · simp only [installCmd, if_pos hpre]
    · simp only [installCmd, if_neg hpre] at hnostore ⊢
      cases version with
      | none =>
        cases installResult with
        | error e => simp
        | ok r =>
          rcases r with ⟨info, ii⟩
          cases ii with
          | none => simp
          | some install_info => simp at hnostore
      | some v =>
        cases hr : resolveVersionInstall library slug v os with
        | error e2 => simp [hr]
        | ok pv =>
          simp only [hr] at hnostore ⊢
          cases installResult with
          | error e => simp
          | ok r =>
            rcases r with ⟨info, ii⟩
            cases ii with
            | none => simp
            | some install_info => simp at hnostore

/-- Witness for C1: a concrete engine error leaves the persisted mapping
unchanged with no store effect. -/
theorem engine_no_global_mutation_witness :
    (installCmd [] sampleLibrary "game" none none none none ⟨false⟩ "/games"
        (.error .Auth)).persisted = [] ∧
    Effect.storeInstalled ∉
      (installCmd [] sampleLibrary "game" none none none none ⟨false⟩ "/games"
        (.error .Auth)).effects :=
  (engine_no_global_mutation [] sampleLibrary "game" none none none none
    ⟨false⟩ "/games" (.error .Auth) _ rfl).1 .Auth rfl

/-- Erasing a key removes every binding of it from the mapping. -/
theorem lookupKey_eraseKey (m : InstalledConfig) (k : String) :
    lookupKey (eraseKey m k) k = none := by
  induction m with
  | nil => rfl
  | cons e t ih =>
    by_cases h : (e.1 == k) = true
    · simp [eraseKey, lookupKey, List.filter_cons, h]
    · simp only [Bool.not_eq_true] at h
      simp [eraseKey, lookupKey, List.filter_cons, h, List.find?_cons]

/-- C4: for every uninstall invocation without the keep option, if
removal of the install directory fails, the command returns the removal
error, performs no store, and the record for the slug stays in the
persisted mapping; the record is erased from the persisted mapping only
after directory removal succeeds, and the store happens after the
removal (`main.rs` lines 144–159). -/
theorem uninstall_error_keeps_record (persisted : InstalledConfig)
    (slug : String) (info : InstallInfo) (e : FreeCarnivalError)
    (hfound : lookupKey persisted slug = some info) :
    uninstallCmd persisted slug false (.error e)
      = ⟨[.removeDir info.install_path], persisted, .error e⟩ ∧
    lookupKey (uninstallCmd persisted slug false (.error e)).persisted slug
      = some info ∧
    Effect.storeInstalled ∉ (uninstallCmd persisted slug false (.error e)).effects ∧
    uninstallCmd persisted slug false (.ok ())
      = ⟨[.removeDir info.install_path, .storeInstalled],
          eraseKey persisted slug, .ok ()⟩ := by
  refine ⟨?_, ?_, ?_, ?_⟩ <;> simp [uninstallCmd, hfound]

/-- Witness for C4: with one concrete installed record, a failed removal
leaves the record persisted. -/
theorem uninstall_error_keeps_record_witness :
    uninstallCmd [("game", linuxInstall)] "game" false (.error (.RemoveDir "busy"))
      = ⟨[.removeDir linuxInstall.install_path], [("game", linuxInstall)],
          .error (.RemoveDir "busy")⟩ :=
  (uninstall_error_keeps_record [("game", linuxInstall)] "game" linuxInstall
    (.RemoveDir "busy") rfl).1

/-- C10: for every uninstall invocation with the keep option set, the
record for the slug is erased from the mapping and the mapping is
persisted, but no directory-removal effect occurs regardless of what
removal would have returned (`main.rs` lines 144–159: `utils::uninstall`
is called only when `keep` is unset). -/
theorem uninstall_keep_no_removal (persisted : InstalledConfig)
    (slug : String) (info : InstallInfo)
    (removeResult : Except FreeCarnivalError Unit)
    (hfound : lookupKey persisted slug = some info) :
    uninstallCmd persisted slug true removeResult
      = ⟨[.storeInstalled], eraseKey persisted slug, .ok ()⟩ ∧
    (∀ p, Effect.removeDir p ∉
      (uninstallCmd persisted slug true removeResult).effects) ∧
    lookupKey (uninstallCmd persisted slug true removeResult).persisted slug
      = none := by
  refine ⟨?_, ?_, ?_⟩ <;>
    simp [uninstallCmd, hfound, lookupKey_eraseKey]

/-- Witness for C10: uninstalling a concrete slug with keep set erases
the record, persists, and performs no removal. -/
theorem uninstall_keep_no_removal_witness :
    uninstallCmd [("game", linuxInstall)] "game" true (.ok ())
      = ⟨[.storeInstalled], eraseKey [("game", linuxInstall)] "game", .ok ()⟩ :=
  (uninstall_keep_no_removal [("game", linuxInstall)] "game" linuxInstall
    (.ok ()) rfl).1

/-- C7: for every launch invocation, the orchestrator returns the exit
status of the spawned process it waited for, and a spawn failure fails
with `FreeCarnivalError::Command` carrying the attempted command; every
launch error arises from a spawn failure and carries the attempted
command (spec §4.6; `utils.rs` is not in the snapshot, `launch` is
modelled from the spec). -/
theorem launch_reports_exit_status (cmd : LaunchCommand) :
    (∀ status, launch cmd (.ok status) = .ok status) ∧
    (∀ e, launch cmd (.error e) = .error (.Command cmd e)) ∧
    (∀ spawn err, launch cmd spawn = .error err →
      ∃ e, spawn = .error e ∧ err = .Command cmd e) := by
  refine ⟨fun status => rfl, fun e => rfl, ?_⟩
  intro spawn err h
  cases spawn with
  | error e =>
    refine ⟨e, rfl, ?_⟩
    simp only [launch] at h
    exact (Except.error.injEq _ _).mp h.symm
  | ok status => simp [launch] at h

/-- Witness for C7: a concrete spawn failure yields the launch error
carrying the attempted command. -/
theorem launch_reports_exit_status_witness :
    ∃ e, (Except.error "ENOENT" : SpawnOutcome) = .error e ∧
      (FreeCarnivalError.Command ⟨"wine", ["game.exe"]⟩ "ENOENT")
        = .Command ⟨"wine", ["game.exe"]⟩ e :=
  (launch_reports_exit_status ⟨"wine", ["game.exe"]⟩).2.2 (.error "ENOENT")
    (.Command ⟨"wine", ["game.exe"]⟩ "ENOENT") rfl

/-- C8: for every config record type implementing the load/store/clear
capability, `clear()` writes the type's default value to the type's
config path — so `clear()` is the same store operation as
`store(Default::default())` — and a `load()` after a successful
`clear()` returns the default value (`config.rs` lines 18–51; the
Logout command clears the user and library configs, which afterwards
load as their empty defaults). -/
theorem clear_is_store_default {α : Type} (C : GalaConfig α) (dir : String)
    (fs : ConfigFS) :
    clearFS C dir fs = storeFS C C.defaultVal dir fs ∧
    loadFS C dir (clearFS C dir fs) = .ok C.defaultVal := by
  constructor
  · funext p
    simp [clearFS, storeFS]
  · simp [loadFS, clearFS, C.roundtrip]

/-- Concrete consequence of C8 for the Logout command: the cleared user
config loads as the empty default. -/
theorem clear_is_store_default_witness :
    loadFS UserConfigImpl "/cfg"
        (clearFS UserConfigImpl "/cfg" (fun _ => none))
      = .ok UserConfigImpl.defaultVal :=
  (clear_is_store_default UserConfigImpl "/cfg" (fun _ => none)).2

/-- C9: `api::auth::sync` returns `Ok(None)` — not an error — when the
body fails to parse as `UserInfo`, or the parsed `status` is not
"success", or `user_found` is not "true"; `Err` arises exactly from
transport failures (a transported response always yields `Ok`); and when
the showcase content is absent or its parse fails, sync still returns
`Ok(Some(..))` with an empty library collection
(`api/auth.rs` lines 77–119). -/
theorem sync_tolerant_parsing :
    (∀ res : SyncResponse, res.parseUser = none →
      sync (.ok res) = .ok none) ∧
    (∀ (res : SyncResponse) (ui : UserInfo), res.parseUser = some ui →
      (ui.status ≠ "success" ∨ ui.user_found ≠ "true") →
      sync (.ok res) = .ok none) ∧
    (∀ res : SyncResponse, ∃ r, sync (.ok res) = .ok r) ∧
    (∀ e, sync (.error e) = .error e) ∧
    (∀ (res : SyncResponse) (ui : UserInfo), res.parseUser = some ui →
      ui.status = "success" → ui.user_found = "true" →
      (res.parseShowcase = none ∨ res.parseShowcase = some ⟨none⟩) →
      sync (.ok res) = .ok (some ⟨some ui, res.raw_cookies, []⟩)) := by
  refine ⟨?_, ?_, ?_, ?_, ?_⟩
  · intro res h
    simp [sync, h]
  · intro res ui h hbad
    rcases hbad with hbad | hbad <;>
      simp [sync, h, hbad]
  · intro res
    cases h : res.parseUser with
    | none => exact ⟨none, by simp [sync, h]⟩
    | some ui =>
      by_cases hs : (ui.status != "success" || ui.user_found != "true") = true
      · exact ⟨none, by simp only [sync, h]; rw [if_pos hs]⟩
      · exact ⟨_, by simp only [sync, h]; rw [if_neg hs]⟩
  · intro e
    rfl
  · intro res ui h hst hf hsc
    rcases hsc with hsc | hsc <;>
      simp [sync, h, hst, hf, hsc]

/-- Witness for C9: a concrete body whose `user_found` is "false" yields
`Ok None`. -/
theorem sync_tolerant_parsing_witness :
    sync (.ok ⟨[], some ⟨"success", "false", none, none, none⟩, none⟩)
      = .ok none :=
  sync_tolerant_parsing.2.1 ⟨[], some ⟨"success", "false", none, none, none⟩, none⟩
    ⟨"success", "false", none, none, none⟩ rfl
    (Or.inr (by decide))

/-- Counterexample to C3 as stated: in the catalog, the only version
entry for slug "game" with label "1.0" targets platform "windows", so
no entry matches both the requested label "1.0" and the installed
platform "linux" — yet the Update branch's resolution succeeds,
returning the windows entry, instead of failing with a
version-not-found error (`main.rs` lines 193–196 match on the version
label only). -/
theorem update_resolution_ignores_platform :
    (∀ pv ∈ sampleProduct.version,
      ¬(pv.version = "1.0" ∧ pv.os = linuxInstall.os)) ∧
    resolveVersionUpdate sampleLibrary "game" "1.0" = .ok winVersion := by
  constructor
  · decide
  · rfl

/-- C3 (amended): given the product for the slug is found in the
library, version resolution of the Install branch with an explicit
target os fails with `InstallBuild(version, slug)` exactly when no
catalog version entry matches both the requested version label and the
requested os; the Install branch without an explicit os and the Update
branch consider the version label only — an entry for any platform
satisfies them (`main.rs` lines 96–121 and 186–205). -/
theorem version_resolution_characterised (library : LibraryConfig)
    (slug version : String) (os : Option String) (product : Product)
    (hp : library.collection.find? (fun p => p.slugged_name == slug)
      = some product) :
    (∀ t, os = some t →
      (resolveVersionInstall library slug version os
          = .error (.InstallBuild version slug) ↔
        ∀ v ∈ product.version, v.version = version → v.os ≠ t)) ∧
    (os = none →
      (resolveVersionInstall library slug version os
          = .error (.InstallBuild version slug) ↔
        ∀ v ∈ product.version, v.version ≠ version)) ∧
    (resolveVersionUpdate library slug version
        = .error (.InstallBuild version slug) ↔
      ∀ v ∈ product.version, v.version ≠ version) := by
  refine ⟨?_, ?_, ?_⟩
  · rintro t rfl
    simp only [resolveVersionInstall, hp]
    cases hf : product.version.find?
        (fun v => v.version == version && v.os == t) with
    | none =>
      simp only [List.find?_eq_none, Bool.and_eq_true, beq_iff_eq, not_and] at hf
      constructor
      · intro _
        exact hf
      · intro _
        rfl
    | some v =>
      have hpred := List.find?_some hf
      have hmem := List.mem_of_find?_eq_some hf
      simp only [Bool.and_eq_true, beq_iff_eq] at hpred
      constructor
      · intro habs
        exact absurd habs (by simp)
      · intro hall
        exact absurd hpred.2 (hall v hmem hpred.1)
  · rintro rfl
    simp only [resolveVersionInstall, hp]
    cases hf : product.version.find?
        (fun v => v.version == version && true) with
    | none =>
      simp only [List.find?_eq_none, Bool.and_eq_true, beq_iff_eq,
        and_true] at hf
      constructor
      · intro _
        exact hf
      · intro _
        rfl
    | some v =>
      have hpred := List.find?_some hf
      have hmem := List.mem_of_find?_eq_some hf
      simp only [Bool.and_eq_true, beq_iff_eq] at hpred
      constructor
      · intro habs
        exact absurd habs (by simp)
      · intro hall
        exact absurd hpred.1 (hall v hmem)
  · simp only [resolveVersionUpdate, hp]
    cases hf : product.version.find? (fun v => v.version == version) with
    | none =>
      simp only [List.find?_eq_none, beq_iff_eq] at hf
      constructor
      · intro _
        exact hf
      · intro _
        rfl
    | some v =>
      have hpred := List.find?_some hf
      have hmem := List.mem_of_find?_eq_some hf
      simp only [beq_iff_eq] at hpred
      constructor
      · intro habs
        exact absurd habs (by simp)
      · intro hall
        exact absurd hpred (hall v hmem)

/-- Witness for C3 (amended): with an explicit os "linux", install
resolution of the concrete windows-only catalog fails with
`InstallBuild`. -/
theorem version_resolution_characterised_witness :
    resolveVersionInstall sampleLibrary "game" "1.0" (some "linux")
      = .error (.InstallBuild "1.0" "game") :=
  ((version_resolution_characterised sampleLibrary "game" "1.0"
      (some "linux") sampleProduct rfl).1 "linux" rfl).mpr (by decide)

/-- The label order is reflexive. -/
theorem labelLe_refl (a : String) : labelLe a a := le_refl a.data

/-- The label order is transitive. -/
theorem labelLe_trans {a b c : String} (h1 : labelLe a b)
    (h2 : labelLe b c) : labelLe a c := le_trans h1 h2

/-- The label order is antisymmetric. -/
theorem labelLe_antisymm {a b : String} (h1 : labelLe a b)
    (h2 : labelLe b a) : a = b := by
  cases a
  cases b
  exact congrArg String.mk (le_antisymm h1 h2)

/-- Strictly smaller labels are smaller. -/
theorem labelLe_of_lt {a b : String} (h : labelLt a b) : labelLe a b :=
  le_of_lt h

/-- The label order is total. -/
theorem labelLe_of_not_lt {a b : String} (h : ¬labelLt a b) : labelLe b a :=
  le_of_not_lt h

/-- Function `maxLabel` is `none` exactly on the empty list. -/
theorem maxLabel_eq_none_iff (l : List String) :
    maxLabel l = none ↔ l = [] := by
  cases l with
  | nil => simp [maxLabel]
  | cons v rest =>
    cases hr : maxLabel rest <;> simp [maxLabel, hr]

/-- The greatest label is an element of the list. -/
theorem maxLabel_mem {l : List String} {v : String}
    (h : maxLabel l = some v) : v ∈ l := by
  induction l generalizing v with
  | nil => simp [maxLabel] at h
  | cons a rest ih =>
    rw [maxLabel] at h
    cases hr : maxLabel rest with
    | none =>
      rw [hr] at h
      simp only [Option.some.injEq] at h
      simp [h.symm]
    | some m =>
      rw [hr] at h
      simp only [Option.some.injEq] at h
      by_cases hc : labelLt a m
      · rw [if_pos hc] at h
        exact List.mem_cons_of_mem a (ih (h ▸ hr))
      · rw [if_neg hc] at h
        simp [h.symm]

/-- The greatest label bounds every element of the list. -/
theorem maxLabel_le {l : List String} {v : String}
    (h : maxLabel l = some v) : ∀ w ∈ l, labelLe w v := by
  induction l generalizing v with
  | nil => simp
  | cons a rest ih =>
    rw [maxLabel] at h
    cases hr : maxLabel rest with
    | none =>
      rw [hr] at h
      simp only [Option.some.injEq] at h
      rw [maxLabel_eq_none_iff] at hr
      subst hr
      intro w hw
      simp only [List.mem_singleton] at hw
      rw [hw, h]
      exact labelLe_refl v
    | some m =>
      rw [hr] at h
      simp only [Option.some.injEq] at h
      have hm : labelLe m v := by
        by_cases hc : labelLt a m
        · rw [if_pos hc] at h
          exact h ▸ labelLe_refl m
        · rw [if_neg hc] at h
          exact h ▸ labelLe_of_not_lt hc
      have ha : labelLe a v := by
        by_cases hc : labelLt a m
        · rw [if_pos hc] at h
          exact h ▸ labelLe_of_lt hc
        · rw [if_neg hc] at h
          exact h ▸ labelLe_refl a
      intro w hw
      rcases List.mem_cons.mp hw with hw | hw
      · rw [hw]
        exact ha
      · exact labelLe_trans (ih hr w hw) hm

/-- A member that bounds the whole list is the greatest label. -/
theorem maxLabel_eq_some_of {l : List String} {v : String}
    (hv : v ∈ l) (hub : ∀ w ∈ l, labelLe w v) : maxLabel l = some v := by
  cases hm : maxLabel l with
  | none =>
    rw [maxLabel_eq_none_iff] at hm
    subst hm
    simp at hv
  | some m =>
    have h1 : labelLe m v := hub m (maxLabel_mem hm)
    have h2 : labelLe v m := maxLabel_le hm v hv
    rw [labelLe_antisymm h1 h2]

/-- C6: for every catalog and installed-state mapping,
`check_updates` contains `(slug, latest)` exactly when some record for
`slug` is installed, the catalog resolves a product for `slug`, and
`latest` is a strictly newer catalog version for the installed platform
that bounds all such newer versions (the maximal one); installed slugs
absent from the catalog contribute nothing.  The `newerVersions`
candidate set is exactly the catalog version labels on the installed
platform strictly newer than the installed version
(spec §4.5; `utils.rs` is not in the snapshot, `check_updates` is
modelled from the spec). -/
theorem check_updates_characterised (library : LibraryConfig)
    (installed : InstalledConfig) (slug latest : String) :
    ((slug, latest) ∈ check_updates library installed ↔
      ∃ info, (slug, info) ∈ installed ∧
        ∃ p, library.collection.find? (fun q => q.slugged_name == slug)
            = some p ∧
          latest ∈ newerVersions p info ∧
          ∀ w ∈ newerVersions p info, labelLe w latest) ∧
    (∀ (p : Product) (info : InstallInfo) (w : String),
      w ∈ newerVersions p info ↔
        ∃ pv ∈ p.version, pv.os = info.os ∧ pv.version = w ∧
          labelLt info.version w) := by
  constructor
  · constructor
    · intro hmem
      rcases List.mem_filterMap.mp hmem with ⟨⟨s, info⟩, ha, hfa⟩
      dsimp only at hfa
      cases hf : library.collection.find? (fun q => q.slugged_name == s) with
      | none => simp [hf] at hfa
      | some p =>
        simp only [hf] at hfa
        cases hl : maxLabel (newerVersions p info) with
        | none => simp [hl] at hfa
        | some m =>
          simp only [hl, Option.some.injEq, Prod.mk.injEq] at hfa
          rcases hfa with ⟨rfl, rfl⟩
          exact ⟨info, ha, p, hf,
            maxLabel_mem hl, maxLabel_le hl⟩
    · rintro ⟨info, ha, p, hf, hlat, hub⟩
      refine List.mem_filterMap.mpr ⟨(slug, info), ha, ?_⟩
      dsimp only
      simp only [hf, maxLabel_eq_some_of hlat hub]
  · intro p info w
    simp only [newerVersions, List.mem_filter, List.mem_map,
      List.mem_filter, beq_iff_eq, decide_eq_true_eq]
    constructor
    · rintro ⟨⟨pv, ⟨hpv, hos⟩, hver⟩, hlt⟩
      exact ⟨pv, hpv, hos, hver, hver ▸ hlt⟩
    · rintro ⟨pv, hpv, hos, hver, hlt⟩
      exact ⟨⟨pv, ⟨hpv, hos⟩, hver⟩, hver ▸ hlt⟩

/-- Witness for C6 at the spec's scenario: installed "1.0" with catalog
versions "1.0", "1.1", "2.0" for the same slug and platform yields the
maximal newer version "2.0". -/
theorem check_updates_characterised_witness :
    ("game", "2.0") ∈ check_updates
      ⟨[⟨"ns", "game", 1, "Game", "key",
          [⟨"1.0", "linux"⟩, ⟨"1.1", "linux"⟩, ⟨"2.0", "linux"⟩]⟩]⟩
      [("game", ⟨"1.0", "linux", "/opt/game", none⟩)] :=
  (check_updates_characterised
      ⟨[⟨"ns", "game", 1, "Game", "key",
          [⟨"1.0", "linux"⟩, ⟨"1.1", "linux"⟩, ⟨"2.0", "linux"⟩]⟩]⟩
      [("game", ⟨"1.0", "linux", "/opt/game", none⟩)] "game" "2.0").1.mpr
    ⟨⟨"1.0", "linux", "/opt/game", none⟩, by decide,
      ⟨"ns", "game", 1, "Game", "key",
        [⟨"1.0", "linux"⟩, ⟨"1.1", "linux"⟩, ⟨"2.0", "linux"⟩]⟩, by decide,
      by decide, by decide⟩

end OpenGala
